import Mathlib

/-!
# BoringPomodoro — verification of the timer / task / insights core

Shallow embedding of the BoringPomodoro mobile application core:

* `src/context/PomodoroContext.tsx` — timer state machine
  (`handleTimerComplete`, `loadTimerState`, `saveTimerState`, `pauseTimer`,
  the one-second tick of `startTimerInternal`);
* `TaskContext` — task lists (`incrementPomodoro`, `completeTask`,
  `restoreTask`);
* `InsightsContext` — session log (`addSession`, `calculateStreaks`);
* `SettingsScreen.DurationRow.handleBlur` / `SettingsContext.updateTimerSettings`
  — duration clamping.

Modelling conventions:

* JavaScript `number` values that the code only ever uses as non-negative
  integers (durations, counters, epoch milliseconds) are `Nat`; where the
  source computes a possibly-signed difference (`previousDate - currentDate`
  in the streak loops) the embedding casts to `Int` exactly as the source
  subtracts raw values.
* `YYYY-MM-DD` date strings are day indices (`Nat`): the source parses such a
  string to a UTC-midnight `Date`, so `getTime() / 86400000` is exactly the
  day index and lexicographic order on the strings is numeric order on the
  indices.
* Task / session `id` strings (`Date.now().toString()`) are `Nat`.
* External gateways (audio, notifications, storage) are effect sinks; the
  bits of their state the context tracks (`isAmbientPlaying`,
  `notificationIdRef`) are plain fields of the state record.
-/

namespace Pomodoro

/-- `TimerMode` from `PomodoroContext.tsx`: `"focus" | "shortBreak" | "longBreak"`. -/
inductive TimerMode where
  | focus
  | shortBreak
  | longBreak
deriving DecidableEq, Repr

/-- `FocusCategory` from `InsightsContext`: `"work" | "study" | "personal" | "health" | "other"`. -/
inductive FocusCategory where
  | work
  | study
  | personal
  | health
  | other
deriving DecidableEq, Repr

/-- `TimerSettings` from `SettingsContext` (durations in minutes). -/
structure TimerSettings where
  workDuration : Nat
  shortBreakDuration : Nat
  longBreakDuration : Nat
  autoStartNext : Bool
  pomodorosUntilLongBreak : Nat
deriving DecidableEq, Repr

/-- `Task` from `TaskContext`. -/
structure Task where
  id : Nat
  title : String
  category : FocusCategory
  pomodoroEstimate : Nat
  pomodorosCompleted : Nat
  completed : Bool
  completedAt : Option Nat
  createdAt : Nat
  order : Nat
deriving DecidableEq, Repr

/-- `FocusSession` from `InsightsContext` (`date` is a day index, `duration` minutes). -/
structure FocusSession where
  id : Nat
  date : Nat
  duration : Nat
  category : FocusCategory
  taskId : Option Nat
  taskTitle : Option String
  completedAt : Nat
deriving DecidableEq, Repr

/-! ## Streaks (`InsightsContext.calculateStreaks`) -/

/-- Insertion of a date into a descending-sorted list; together with
`sortDesc` this realises `[...new Set(dates)].sort().reverse()` from
`calculateStreaks`: the distinct dates in descending order. -/
def insertDesc (a : Nat) : List Nat → List Nat
  | [] => [a]
  | b :: l => if a ≥ b then a :: b :: l else b :: insertDesc a l

/-- Sort a list of day indices in descending order (insertion sort). -/
def sortDesc : List Nat → List Nat
  | [] => []
  | a :: l => insertDesc a (sortDesc l)

/-- `uniqueDates` of `calculateStreaks`: the distinct session dates in
descending order (`[...new Set(sessions.map(s => s.date))].sort().reverse()`). -/
def getUniqueDatesDesc (sessions : List FocusSession) : List Nat :=
  sortDesc (sessions.map (fun s => s.date)).dedup

/-- The main loop of `calculateStreaks` (indices `i ≥ 1`), carrying
`bestStreak` and `tempStreak`, with the final `max(bestStreak, tempStreak)`
applied on exit.  `prev` is `uniqueDates[i-1]`; the source compares
`Math.round((previousDate.getTime() - currentDate.getTime()) / 86400000) === 1`,
i.e. the signed difference of day indices. -/
def bestLoop (prev best temp : Nat) : List Nat → Nat
  | [] => max best temp
  | d :: rest =>
    if (prev : Int) - (d : Int) = 1 then bestLoop d best (temp + 1) rest
    else bestLoop d (max best temp) 1 rest

/-- The current-streak loop of `calculateStreaks` (the walk from the most
recent date that breaks at the first gap ≠ 1); returns the number of
extensions past the head date. -/
def curLoop (prev : Nat) : List Nat → Nat
  | [] => 0
  | d :: rest =>
    if (prev : Int) - (d : Int) = 1 then 1 + curLoop d rest else 0

/-- `calculateStreaks(sessions)` from `InsightsContext`, returning
`(current, best)`.  `today` is the current day index; `yesterday` is
`today - 1`. -/
def calculateStreaks (today : Nat) (sessions : List FocusSession) : Nat × Nat :=
  if sessions = [] then (0, 0)
  else
    match getUniqueDatesDesc sessions with
    | [] => (0, 0)
    | d0 :: rest =>
      let streakActive := d0 = today ∨ d0 = today - 1
      let best := bestLoop d0 0 1 rest
      let current := if streakActive then 1 + curLoop d0 rest else 0
      (current, best)

/-! ### Spec-level streak definitions

The spec describes the same computation as runs over the descending-sorted
distinct dates: "a gap of exactly 1 day extends a run and any other gap
breaks it; bestStreak is the longest run and currentStreak is the run
starting at the most recent date when active, else 0."  The following
definitions are written from those words, to be compared with the
loop-faithful `calculateStreaks` above. -/

/-- Length of the run at the head of a descending date list: consecutive
entries descending by exactly 1 extend it, anything else ends it. -/
def firstRun : List Nat → Nat
  | [] => 0
  | [_] => 1
  | a :: b :: l => if a = b + 1 then 1 + firstRun (b :: l) else 1

/-- Number of entries at the head of `l` continuing a run whose previous
(larger) element is `prev`. -/
def contRun (prev : Nat) : List Nat → Nat
  | [] => 0
  | d :: l => if prev = d + 1 then 1 + contRun d l else 0

/-- Drop the entries at the head of `l` continuing a run from `prev`. -/
def dropChain (prev : Nat) : List Nat → List Nat
  | [] => []
  | d :: l => if prev = d + 1 then dropChain d l else d :: l

theorem dropChain_length_le (prev : Nat) (l : List Nat) :
    (dropChain prev l).length ≤ l.length := by
  induction l generalizing prev with
  | nil => simp [dropChain]
  | cons d l ih =>
    simp only [dropChain]
    split
    · exact Nat.le_trans (ih d) (Nat.le_succ _)
    · exact Nat.le_refl _

/-- Drop the whole run at the head of the list. -/
def dropRun : List Nat → List Nat
  | [] => []
  | a :: l => dropChain a l

/-- Length of the longest run in a descending date list: the maximum of the
head run and the best run of the rest. -/
def bestRun : List Nat → Nat
  | [] => 0
  | a :: l => max (firstRun (a :: l)) (bestRun (dropChain a l))
termination_by l => l.length
decreasing_by
  simp_wf
  exact Nat.lt_succ_of_le (dropChain_length_le _ _)

/-- The streak computation as the spec words it: over the distinct dates
sorted descending, `best` is the longest run; `current` is the head run when
the most recent date is today or yesterday, else 0. -/
def streaksSpec (today : Nat) (sessions : List FocusSession) : Nat × Nat :=
  match getUniqueDatesDesc sessions with
  | [] => (0, 0)
  | d0 :: rest =>
    ((if d0 = today ∨ d0 = today - 1 then firstRun (d0 :: rest) else 0),
     bestRun (d0 :: rest))

/-! ## Tasks (`TaskContext`)

The task operations act on the triple
`(tasks, archivedTasks, currentTaskId)`. -/

/-- The three task-related pieces of `TaskContext` state. -/
structure TaskState where
  tasks : List Task
  archivedTasks : List Task
  currentTaskId : Option Nat
deriving DecidableEq, Repr

/-- `completeTask(id)` from `TaskContext`: move the first active task with
this id (if any) to the front of the archived list, marked completed with
`completedAt = Date.now()`; drop every active task with this id; clear
`currentTaskId` when it pointed at this id. -/
def completeTask (now id : Nat) (ts : TaskState) : TaskState :=
  let curr' := if ts.currentTaskId = some id then none else ts.currentTaskId
  match ts.tasks.find? (fun t => t.id == id) with
  | none => { ts with currentTaskId := curr' }
  | some t =>
    { tasks := ts.tasks.filter (fun x => x.id != id),
      archivedTasks := { t with completed := true, completedAt := some now } :: ts.archivedTasks,
      currentTaskId := curr' }

/-- `incrementPomodoro(id)` from `TaskContext`: bump `pomodorosCompleted` of
every active task with this id; when a bumped task reaches its
`pomodoroEstimate`, the deferred `completeTask(id)` (`setTimeout(..., 0)`)
runs against the updated list. -/
def incrementPomodoro (now id : Nat) (ts : TaskState) : TaskState :=
  let tasks' := ts.tasks.map (fun t =>
    if t.id = id then { t with pomodorosCompleted := t.pomodorosCompleted + 1 } else t)
  let shouldComplete := ts.tasks.any (fun t =>
    t.id == id && decide (t.pomodorosCompleted + 1 ≥ t.pomodoroEstimate))
  if shouldComplete then completeTask now id { ts with tasks := tasks' }
  else { ts with tasks := tasks' }

/-- `restoreTask(id)` from `TaskContext`: move the first archived task with
this id (if any) back to the end of the active list, with
`completed := false`, `completedAt` cleared, `pomodorosCompleted := 0` and
`order := tasks.length`. -/
def restoreTask (id : Nat) (ts : TaskState) : TaskState :=
  match ts.archivedTasks.find? (fun t => t.id == id) with
  | none => ts
  | some t =>
    { ts with
      tasks := ts.tasks ++
        [{ t with completed := false, completedAt := none,
                  pomodorosCompleted := 0, order := ts.tasks.length }],
      archivedTasks := ts.archivedTasks.filter (fun x => x.id != id) }

/-! ## Insights (`InsightsContext.addSession`) -/

/-- `addSession` from `InsightsContext`: append one new `FocusSession` with
`id = Date.now().toString()` and `completedAt = Date.now()`. -/
def addSession (now date duration : Nat) (category : FocusCategory)
    (taskId : Option Nat) (taskTitle : Option String)
    (sessions : List FocusSession) : List FocusSession :=
  sessions ++ [{ id := now, date := date, duration := duration,
                 category := category, taskId := taskId,
                 taskTitle := taskTitle, completedAt := now }]

/-! ## Timer state machine (`PomodoroContext`) -/

/-- The application state the timer claims range over: the
`PomodoroContext` timer fields, the `FocusScreen` completion-callback
registration, and the `InsightsContext`/`TaskContext` state the callback
touches.  `startTime` is `startTimeRef`, `notificationId` is
`notificationIdRef`; the raw `setInterval` handle is not part of the
abstract state. -/
structure AppState where
  mode : TimerMode
  remainingTime : Nat
  isPlaying : Bool
  completedPomodoros : Nat
  startTime : Option Nat
  notificationId : Option Nat
  isAmbientPlaying : Bool
  timerKey : Nat
  callbackRegistered : Bool
  sessions : List FocusSession
  selectedCategory : FocusCategory
  taskState : TaskState
deriving DecidableEq, Repr

/-- `getDuration(timerMode)` from `PomodoroContext` (seconds). -/
def getDuration (st : TimerSettings) : TimerMode → Nat
  | TimerMode.focus => st.workDuration * 60
  | TimerMode.shortBreak => st.shortBreakDuration * 60
  | TimerMode.longBreak => st.longBreakDuration * 60

/-- `currentTask` from `TaskContext`:
`tasks.find(t => t.id === currentTaskId) || null`. -/
def currentTask (ts : TaskState) : Option Task :=
  ts.tasks.find? (fun t => decide (some t.id = ts.currentTaskId))

/-- The completion callback `FocusScreen` registers via
`setOnPomodoroComplete` while `mode === "focus"`: append one `FocusSession`
(`duration := settings.timer.workDuration`, category from the current task
when one is selected, else the user-selected category, task id/title from
the current task) and, when a task is selected, `incrementPomodoro` it.
`today` is the current day index (`new Date().toISOString().split("T")[0]`). -/
def pomodoroCompleteCallback (st : TimerSettings) (now today : Nat)
    (s : AppState) : AppState :=
  let ct := currentTask s.taskState
  let effectiveCategory :=
    match ct with
    | some t => t.category
    | none => s.selectedCategory
  let sessions' := addSession now today st.workDuration effectiveCategory
    (ct.map (fun t => t.id)) (ct.map (fun t => t.title)) s.sessions
  match ct with
  | some t =>
    { s with sessions := sessions',
             taskState := incrementPomodoro now t.id s.taskState }
  | none => { s with sessions := sessions' }

/-- `handleTimerComplete` from `PomodoroContext`: stop playback, clear the
start anchor, cancel the pending notification, stop ambient sound; if the
finished mode was Focus, increment `completedPomodoros`, invoke the
registered completion callback, and move to `longBreak` when the new count
is a multiple of `pomodorosUntilLongBreak`, else `shortBreak`; after a break
move back to Focus.  Either way the new mode's duration is loaded and
`timerKey` bumped.  (The `autoStartNext` branch re-starts the timer 100 ms
later via `setTimeout`; that deferred restart is outside this synchronous
transition.) -/
def handleTimerComplete (st : TimerSettings) (now today : Nat)
    (s : AppState) : AppState :=
  let s1 := { s with isPlaying := false, startTime := none,
                     notificationId := none, isAmbientPlaying := false }
  if s1.mode = TimerMode.focus then
    let newCount := s1.completedPomodoros + 1
    let s2 := { s1 with completedPomodoros := newCount }
    let s3 := if s2.callbackRegistered then pomodoroCompleteCallback st now today s2 else s2
    let nextMode :=
      if newCount % st.pomodorosUntilLongBreak = 0 then TimerMode.longBreak
      else TimerMode.shortBreak
    { s3 with mode := nextMode, remainingTime := getDuration st nextMode,
              timerKey := s3.timerKey + 1 }
  else
    { s1 with mode := TimerMode.focus,
              remainingTime := getDuration st TimerMode.focus,
              timerKey := s1.timerKey + 1 }

/-- One firing of the `setInterval` callback installed by
`startTimerInternal`: at `remainingTime <= 1` the interval is cleared and
`handleTimerComplete` runs (the updater's transient `return 0` is
overwritten by the completion transition loading the next mode's duration);
otherwise the clock just decrements. -/
def tick (st : TimerSettings) (now today : Nat) (s : AppState) : AppState :=
  if s.remainingTime ≤ 1 then
    handleTimerComplete st now today { s with remainingTime := 0 }
  else
    { s with remainingTime := s.remainingTime - 1 }

/-- `pauseTimer` from `PomodoroContext`: clear the interval, stop playing,
pause ambient sound, cancel the scheduled notification.  Remaining time,
mode and counts are untouched. -/
def pauseTimer (s : AppState) : AppState :=
  { s with isPlaying := false, isAmbientPlaying := false, notificationId := none }

/-- `TimerState` as persisted by `PomodoroContext` (`@pomodoro_timer_state`). -/
structure TimerSnapshot where
  mode : TimerMode
  remainingTime : Nat
  isPlaying : Bool
  completedPomodoros : Nat
  startedAt : Option Nat
  pausedAt : Option Nat
deriving DecidableEq, Repr

/-- `saveTimerState` from `PomodoroContext`: snapshot the current timer
fields; `startedAt` is the start anchor only while playing, `pausedAt` is
`Date.now()` only while not playing. -/
def saveTimerState (now : Nat) (s : AppState) : TimerSnapshot :=
  { mode := s.mode, remainingTime := s.remainingTime, isPlaying := s.isPlaying,
    completedPomodoros := s.completedPomodoros,
    startedAt := if s.isPlaying then s.startTime else none,
    pausedAt := if !s.isPlaying then some now else none }

/-- The else branch of `loadTimerState`: a snapshot that was not (truthily)
playing is restored as-is, except that a stored `remainingTime` of `0`
(falsy: `state.remainingTime || getDuration(state.mode)`) is replaced by the
mode's full duration. -/
def restoreNonPlaying (st : TimerSettings) (state : TimerSnapshot)
    (s : AppState) : AppState :=
  { s with mode := state.mode,
           remainingTime :=
             if state.remainingTime = 0 then getDuration st state.mode
             else state.remainingTime,
           completedPomodoros := state.completedPomodoros }

/-- `loadTimerState` from `PomodoroContext`, applied to the freshly mounted
provider state.  The resume path is guarded by the JavaScript truthiness
test `if (state.isPlaying && state.startedAt)`: it is taken only when the
snapshot was playing AND the stored anchor is non-null and non-zero (the
epoch-ms number `0` is falsy).  On that path the elapsed wall-clock seconds
are subtracted (`Math.max(0, ...)` is `Nat` subtraction); a clock that ran
out while suspended surfaces `remaining = 0` without advancing mode or
count.  Every other snapshot goes through `restoreNonPlaying`. -/
def loadTimerState (st : TimerSettings) (now : Nat)
    (snap : Option TimerSnapshot) (s : AppState) : AppState :=
  match snap with
  | none => s
  | some state =>
    match state.isPlaying, state.startedAt with
    | true, some startedAt =>
      if startedAt = 0 then restoreNonPlaying st state s
      else
        let elapsed := (now - startedAt) / 1000
        let newRemaining := state.remainingTime - elapsed
        if newRemaining > 0 then
          { s with mode := state.mode, remainingTime := newRemaining,
                   completedPomodoros := state.completedPomodoros,
                   isPlaying := false }
        else
          { s with mode := state.mode, remainingTime := 0,
                   completedPomodoros := state.completedPomodoros }
    | _, _ => restoreNonPlaying st state s

/-- The provider's initial state (`useState` initialisers of
`PomodoroProvider`, `TaskProvider`, `InsightsContext`): Paused, Focus,
`remainingTime = workDuration * 60`, no sessions or tasks. -/
def initialState (st : TimerSettings) : AppState :=
  { mode := TimerMode.focus, remainingTime := st.workDuration * 60,
    isPlaying := false, completedPomodoros := 0, startTime := none,
    notificationId := none, isAmbientPlaying := false, timerKey := 0,
    callbackRegistered := false, sessions := [],
    selectedCategory := FocusCategory.work,
    taskState := { tasks := [], archivedTasks := [], currentTaskId := none } }

/-! ## Settings (`SettingsScreen.DurationRow.handleBlur`,
`SettingsContext.updateTimerSettings`) -/

/-- `DurationRow.handleBlur` from `SettingsScreen`: parse the text field
(`parseInt`; `none` models `NaN`, falling back to the previous value), then
clamp with `Math.max(1, Math.min(90, num))`. -/
def handleBlur (parsed : Option Int) (value : Int) : Int :=
  let num := match parsed with
    | none => value
    | some n => n
  max 1 (min 90 num)

/-- `updateTimerSettings({ workDuration })` from `SettingsContext`: merge the
one updated field into the stored timer settings. -/
def updateWorkDuration (st : TimerSettings) (n : Nat) : TimerSettings :=
  { st with workDuration := n }

/-- `updateTimerSettings({ shortBreakDuration })`. -/
def updateShortBreakDuration (st : TimerSettings) (n : Nat) : TimerSettings :=
  { st with shortBreakDuration := n }

/-- `updateTimerSettings({ longBreakDuration })`. -/
def updateLongBreakDuration (st : TimerSettings) (n : Nat) : TimerSettings :=
  { st with longBreakDuration := n }

/-! ## Auxiliary definitions used by the theorems -/

/-- `defaultSettings.timer` from `SettingsContext`. -/
def defaultTimerSettings : TimerSettings :=
  { workDuration := 25, shortBreakDuration := 5, longBreakDuration := 15,
    autoStartNext := false, pomodorosUntilLongBreak := 4 }

/-- A bare focus session on day `d` (used to instantiate streak claims). -/
def mkSession (d : Nat) : FocusSession :=
  { id := 0, date := d, duration := 25, category := FocusCategory.work,
    taskId := none, taskTitle := none, completedAt := 0 }

/-- Number of occurrences of tasks with a given id in a list. -/
def countId (l : List Task) (id : Nat) : Nat :=
  (l.filter (fun x => x.id == id)).length

/-- Look a task up by id in the active list first, then the archive. -/
def findTaskAnywhere (ts : TaskState) (id : Nat) : Option Task :=
  match ts.tasks.find? (fun t => t.id == id) with
  | some t => some t
  | none => ts.archivedTasks.find? (fun t => t.id == id)

/-- Completing whatever non-focus interval is active returns the machine to
Focus (the break branch of `handleTimerComplete`); a machine already in
Focus is left alone.  Used to phrase "`n` consecutive Focus completions". -/
def backToFocus (st : TimerSettings) (now today : Nat) (s : AppState) : AppState :=
  if s.mode = TimerMode.focus then s else handleTimerComplete st now today s

/-- The state right after the `n`-th Focus completion, starting from `s`:
each Focus completion is a `handleTimerComplete` fired in Focus mode, the
intervening break being completed first when one is pending. -/
def focusRun (st : TimerSettings) (now today : Nat) : Nat → AppState → AppState
  | 0, s => s
  | n + 1, s =>
    handleTimerComplete st now today (backToFocus st now today (focusRun st now today n s))

/-- A sample task used by concrete witnesses. -/
def sampleTask : Task :=
  { id := 7, title := "write report", category := FocusCategory.study,
    pomodoroEstimate := 3, pomodorosCompleted := 0, completed := false,
    completedAt := none, createdAt := 0, order := 0 }

/-- A sample application state with `sampleTask` selected, the completion
callback registered, and one second left on the Focus clock. -/
def sampleState : AppState :=
  { initialState defaultTimerSettings with
      remainingTime := 1,
      callbackRegistered := true,
      taskState := { tasks := [sampleTask], archivedTasks := [],
                     currentTaskId := some sampleTask.id } }

/-- A task state whose single active task needs one more pomodoro to reach
its estimate (used by C4's witness). -/
def nearlyDoneState : TaskState :=
  { tasks := [{ sampleTask with pomodorosCompleted := 2 }], archivedTasks := [],
    currentTaskId := some 7 }

/-! ## Streak loop lemmas -/

theorem curLoop_eq_contRun (prev : Nat) (l : List Nat) :
    curLoop prev l = contRun prev l := by
  induction l generalizing prev with
  | nil => rfl
  | cons d rest ih =>
    simp only [curLoop, contRun]
    by_cases h : prev = d + 1
    · rw [if_pos (by omega), if_pos h, ih]
    · rw [if_neg (by omega), if_neg h]

theorem firstRun_cons (prev : Nat) (l : List Nat) :
    firstRun (prev :: l) = 1 + contRun prev l := by
  induction l generalizing prev with
  | nil => rfl
  | cons d rest ih =>
    simp only [firstRun, contRun]
    by_cases h : prev = d + 1
    · rw [if_pos h, if_pos h, ih]
    · rw [if_neg h, if_neg h]

theorem bestRun_cons (a : Nat) (l : List Nat) :
    bestRun (a :: l) = max (1 + contRun a l) (bestRun (dropChain a l)) := by
  rw [bestRun, firstRun_cons]

/-- Invariant of the main streak loop: starting from accumulators
`best`/`temp` with previous date `prev`, the loop returns the max of `best`,
the run currently being extended, and the best run of what remains. -/
theorem bestLoop_eq (l : List Nat) : ∀ prev best temp : Nat,
    bestLoop prev best temp l =
      max best (max (temp + contRun prev l) (bestRun (dropChain prev l))) := by
  induction l with
  | nil =>
    intro prev best temp
    simp [bestLoop, contRun, dropChain, bestRun]
  | cons d rest ih =>
    intro prev best temp
    simp only [bestLoop, contRun, dropChain]
    by_cases h : prev = d + 1
    · rw [if_pos (by omega), if_pos h, if_pos h, ih]
      have : temp + 1 + contRun d rest = temp + (1 + contRun d rest) := by omega
      rw [this]
    · rw [if_neg (by omega), if_neg h, if_neg h, ih, bestRun_cons]
      omega

/-- `calculateStreaks` agrees with the run-based description of the spec on
every session list. -/
theorem calculateStreaks_eq_spec (today : Nat) (sessions : List FocusSession) :
    calculateStreaks today sessions = streaksSpec today sessions := by
  unfold calculateStreaks streaksSpec
  by_cases hs : sessions = []
  · subst hs; rfl
  · rw [if_neg hs]
    cases h : getUniqueDatesDesc sessions with
    | nil => rfl
    | cons d0 rest =>
      simp only
      rw [bestLoop_eq, bestRun_cons, curLoop_eq_contRun, firstRun_cons]
      have hmax : 0 ⊔ ((1 + contRun d0 rest) ⊔ bestRun (dropChain d0 rest)) =
          (1 + contRun d0 rest) ⊔ bestRun (dropChain d0 rest) := by omega
      rw [hmax]

/-! ## Timer transition lemmas -/

theorem pomodoroCompleteCallback_timer_fields (st : TimerSettings) (now today : Nat)
    (s : AppState) :
    (pomodoroCompleteCallback st now today s).mode = s.mode ∧
    (pomodoroCompleteCallback st now today s).completedPomodoros = s.completedPomodoros := by
  unfold pomodoroCompleteCallback
  cases h : currentTask s.taskState <;> simp [h]

/-- Completing a Focus interval increments the count and picks the next mode
from the incremented count. -/
theorem handleTimerComplete_focus (st : TimerSettings) (now today : Nat)
    (s : AppState) (h : s.mode = TimerMode.focus) :
    (handleTimerComplete st now today s).completedPomodoros = s.completedPomodoros + 1 ∧
    (handleTimerComplete st now today s).mode =
      (if (s.completedPomodoros + 1) % st.pomodorosUntilLongBreak = 0
        then TimerMode.longBreak else TimerMode.shortBreak) := by
  unfold handleTimerComplete
  simp only [h, if_true]
  by_cases hcb : s.callbackRegistered
  · have hcc := pomodoroCompleteCallback_timer_fields st now today
      { s with isPlaying := false, startTime := none, notificationId := none,
               isAmbientPlaying := false, completedPomodoros := s.completedPomodoros + 1 }
    simp only [hcb] at *
    simp_all
  · simp [hcb]

/-- Completing a break returns to Focus without touching the count. -/
theorem handleTimerComplete_break (st : TimerSettings) (now today : Nat)
    (s : AppState) (h : ¬ s.mode = TimerMode.focus) :
    (handleTimerComplete st now today s).mode = TimerMode.focus ∧
    (handleTimerComplete st now today s).completedPomodoros = s.completedPomodoros := by
  unfold handleTimerComplete
  simp [h]

theorem backToFocus_mode (st : TimerSettings) (now today : Nat) (s : AppState) :
    (backToFocus st now today s).mode = TimerMode.focus ∧
    (backToFocus st now today s).completedPomodoros = s.completedPomodoros := by
  unfold backToFocus
  by_cases h : s.mode = TimerMode.focus
  · simp [h]
  · simpa [h] using handleTimerComplete_break st now today s h

theorem focusRun_invariant (st : TimerSettings) (now today : Nat) (s : AppState)
    (hcount : s.completedPomodoros = 0) :
    ∀ n : Nat, (focusRun st now today n s).completedPomodoros = n ∧
      (1 ≤ n → (focusRun st now today n s).mode =
        (if n % st.pomodorosUntilLongBreak = 0 then TimerMode.longBreak
         else TimerMode.shortBreak)) := by
  intro n
  induction n with
  | zero => exact ⟨by simpa [focusRun] using hcount, by omega⟩
  | succ n ih =>
    have hb := backToFocus_mode st now today (focusRun st now today n s)
    have hf := handleTimerComplete_focus st now today
      (backToFocus st now today (focusRun st now today n s)) hb.1
    simp only [focusRun]
    refine ⟨?_, fun _ => ?_⟩
    · rw [hf.1, hb.2, ih.1]
    · rw [hf.2, hb.2, ih.1]

/-! ## Task list lemmas -/

theorem find?_map_inc (i : Nat) (l : List Task) (t : Task)
    (h : l.find? (fun x => x.id == i) = some t) :
    (l.map (fun x => if x.id = i
        then { x with pomodorosCompleted := x.pomodorosCompleted + 1 } else x)).find?
      (fun x => x.id == i) =
      some { t with pomodorosCompleted := t.pomodorosCompleted + 1 } := by
  induction l with
  | nil => simp at h
  | cons a l ih =>
    by_cases ha : a.id = i
    · rw [List.find?_cons_of_pos _ (by simpa using ha)] at h
      obtain rfl : a = t := by simpa using h
      simp only [List.map_cons, if_pos ha]
      exact List.find?_cons_of_pos _ (by simpa using ha)
    · rw [List.find?_cons_of_neg _ (by simpa using ha)] at h
      simp only [List.map_cons, if_neg ha]
      rw [List.find?_cons_of_neg _ (by simpa using ha)]
      exact ih h

theorem find?_filter_ne (i : Nat) (l : List Task) :
    (l.filter (fun x => x.id != i)).find? (fun x => x.id == i) = none := by
  rw [List.find?_eq_none]
  intro x hx
  have hne := (List.mem_filter.mp hx).2
  simp only [bne_iff_ne, ne_eq] at hne
  simpa using hne

theorem countId_filter_ne (i : Nat) (l : List Task) :
    countId (l.filter (fun x => x.id != i)) i = 0 := by
  unfold countId
  induction l with
  | nil => rfl
  | cons a l ih =>
    by_cases h : a.id = i
    · simp [List.filter_cons, h, ih]
    · simp [List.filter_cons, h, ih]

/-! ## Completion-callback lemmas -/

theorem currentTask_find (ts : TaskState) (t : Task) (h : currentTask ts = some t) :
    ts.tasks.find? (fun x => x.id == t.id) = some t := by
  unfold currentTask at h
  have h1 := List.find?_some h
  simp only [decide_eq_true_eq] at h1
  have hcur : ts.currentTaskId = some t.id := h1.symm
  have hpred : (fun x : Task => decide (some x.id = ts.currentTaskId)) =
      fun x : Task => x.id == t.id := by
    funext x
    rw [hcur]
    by_cases hx : x.id = t.id <;> simp [hx]
  rwa [hpred] at h

theorem pomodoroCompleteCallback_taskState (st : TimerSettings) (now today : Nat)
    (s : AppState) (t : Task) (h : currentTask s.taskState = some t) :
    (pomodoroCompleteCallback st now today s).taskState =
      incrementPomodoro now t.id s.taskState := by
  unfold pomodoroCompleteCallback
  simp [h]

/-- The session appended by the registered completion callback: one record
with `duration = workDuration`, category and task fields taken from the
current task when one is selected, else the user-selected category. -/
theorem pomodoroCompleteCallback_sessions (st : TimerSettings) (now today : Nat)
    (s : AppState) :
    ∃ sess : FocusSession,
      (pomodoroCompleteCallback st now today s).sessions = s.sessions ++ [sess] ∧
      sess.duration = st.workDuration ∧
      (∀ t, currentTask s.taskState = some t →
        sess.category = t.category ∧ sess.taskId = some t.id ∧
        sess.taskTitle = some t.title) ∧
      (currentTask s.taskState = none →
        sess.category = s.selectedCategory ∧ sess.taskId = none ∧
        sess.taskTitle = none) := by
  unfold pomodoroCompleteCallback addSession
  cases h : currentTask s.taskState with
  | none =>
    refine ⟨{ id := now, date := today, duration := st.workDuration,
              category := s.selectedCategory, taskId := none, taskTitle := none,
              completedAt := now }, rfl, rfl, ?_, fun _ => ⟨rfl, rfl, rfl⟩⟩
    intro t ht
    exact Option.noConfusion ht
  | some t0 =>
    refine ⟨{ id := now, date := today, duration := st.workDuration,
              category := t0.category, taskId := some t0.id,
              taskTitle := some t0.title, completedAt := now }, rfl, rfl, ?_, ?_⟩
    · intro t ht
      obtain rfl : t0 = t := Option.some.inj ht
      exact ⟨rfl, rfl, rfl⟩
    · intro hnone
      exact Option.noConfusion hnone

/-- After `incrementPomodoro`, the incremented task is still found (in the
active list, or in the archive when it just auto-completed) with its count
bumped by one. -/
theorem incrementPomodoro_find (now i : Nat) (ts : TaskState) (t : Task)
    (hfind : ts.tasks.find? (fun x => x.id == i) = some t) :
    ∃ t', findTaskAnywhere (incrementPomodoro now i ts) i = some t' ∧
      t'.pomodorosCompleted = t.pomodorosCompleted + 1 := by
  have htid : t.id = i := by simpa using List.find?_some hfind
  have hfind' := find?_map_inc i ts.tasks t hfind
  unfold incrementPomodoro
  by_cases hsc : (ts.tasks.any fun x =>
      x.id == i && decide (x.pomodorosCompleted + 1 ≥ x.pomodoroEstimate)) = true
  · simp only [hsc, if_true]
    unfold completeTask findTaskAnywhere
    simp only [hfind', find?_filter_ne]
    refine ⟨{ t with pomodorosCompleted := t.pomodorosCompleted + 1,
                     completed := true, completedAt := some now }, ?_, rfl⟩
    exact List.find?_cons_of_pos _ (by simpa using htid)
  · simp only [Bool.not_eq_true] at hsc
    simp only [hsc, Bool.false_eq_true, if_false]
    unfold findTaskAnywhere
    simp only [hfind']
    exact ⟨{ t with pomodorosCompleted := t.pomodorosCompleted + 1 }, rfl, rfl⟩

/-- The full effect of a Focus completion with the callback registered, on
the session log and the task lists. -/
theorem handleTimerComplete_focus_effects (st : TimerSettings) (now today : Nat)
    (s : AppState) (hmode : s.mode = TimerMode.focus)
    (hcb : s.callbackRegistered = true) :
    (∃ sess : FocusSession,
      (handleTimerComplete st now today s).sessions = s.sessions ++ [sess] ∧
      sess.duration = st.workDuration ∧
      (∀ t, currentTask s.taskState = some t →
        sess.category = t.category ∧ sess.taskId = some t.id ∧
        sess.taskTitle = some t.title) ∧
      (currentTask s.taskState = none →
        sess.category = s.selectedCategory ∧ sess.taskId = none ∧
        sess.taskTitle = none)) ∧
    (∀ t, currentTask s.taskState = some t →
      ∃ t', findTaskAnywhere (handleTimerComplete st now today s).taskState t.id = some t' ∧
        t'.pomodorosCompleted = t.pomodorosCompleted + 1) := by
  have hsess : (handleTimerComplete st now today s).sessions =
      (pomodoroCompleteCallback st now today
        { s with isPlaying := false, startTime := none, notificationId := none,
                 isAmbientPlaying := false,
                 completedPomodoros := s.completedPomodoros + 1 }).sessions := by
    unfold handleTimerComplete
    simp [hmode, hcb]
  have htask : (handleTimerComplete st now today s).taskState =
      (pomodoroCompleteCallback st now today
        { s with isPlaying := false, startTime := none, notificationId := none,
                 isAmbientPlaying := false,
                 completedPomodoros := s.completedPomodoros + 1 }).taskState := by
    unfold handleTimerComplete
    simp [hmode, hcb]
  constructor
  · obtain ⟨sess, h1, h2, h3, h4⟩ := pomodoroCompleteCallback_sessions st now today
      { s with isPlaying := false, startTime := none, notificationId := none,
               isAmbientPlaying := false,
               completedPomodoros := s.completedPomodoros + 1 }
    exact ⟨sess, by rw [hsess, h1], h2, h3, h4⟩
  · intro t ht
    rw [htask, pomodoroCompleteCallback_taskState st now today
      { s with isPlaying := false, startTime := none, notificationId := none,
               isAmbientPlaying := false,
               completedPomodoros := s.completedPomodoros + 1 } t ht]
    exact incrementPomodoro_find now t.id s.taskState t (currentTask_find _ t ht)

/-! ## Claim theorems -/

/-- C8: restoring an archived task appends it to the end of the active list
with `pomodorosCompleted` reset to 0, `completed` reset to false and
`completedAt` cleared (title, category, id and estimate preserved), removes
it from the archive, and leaves every other task in both lists unchanged. -/
theorem restoreTask_resets (id : Nat) (ts : TaskState) (t : Task)
    (hfind : ts.archivedTasks.find? (fun x => x.id == id) = some t) :
    (restoreTask id ts).tasks =
      ts.tasks ++ [{ t with completed := false, completedAt := none,
                            pomodorosCompleted := 0, order := ts.tasks.length }] ∧
    (∀ x ∈ ts.archivedTasks, x.id ≠ id → x ∈ (restoreTask id ts).archivedTasks) ∧
    (∀ x ∈ (restoreTask id ts).archivedTasks, x ∈ ts.archivedTasks ∧ x.id ≠ id) ∧
    (restoreTask id ts).currentTaskId = ts.currentTaskId := by
  unfold restoreTask
  rw [hfind]
  refine ⟨rfl, ?_, ?_, rfl⟩
  · intro x hx hne
    exact List.mem_filter.mpr ⟨hx, by simpa using hne⟩
  · intro x hx
    have h := List.mem_filter.mp hx
    exact ⟨h.1, by simpa using h.2⟩

/-- The archived copy of `sampleTask` used by C8's witness. -/
def archivedSample : Task :=
  { sampleTask with completed := true, completedAt := some 99, pomodorosCompleted := 3 }

/-- A `TaskState` whose archive holds exactly `archivedSample`. -/
def archiveState : TaskState :=
  { tasks := [], archivedTasks := [archivedSample], currentTaskId := none }

/-- Closed instance of C8's theorem at a one-task archive. -/
theorem restoreTask_resets_witness :
    (restoreTask 7 archiveState).tasks =
      archiveState.tasks ++
        [{ archivedSample with completed := false, completedAt := none, pomodorosCompleted := 0, order := archiveState.tasks.length }] ∧
    (∀ x ∈ archiveState.archivedTasks, x.id ≠ 7 →
      x ∈ (restoreTask 7 archiveState).archivedTasks) ∧
    (∀ x ∈ (restoreTask 7 archiveState).archivedTasks,
      x ∈ archiveState.archivedTasks ∧ x.id ≠ 7) ∧
    (restoreTask 7 archiveState).currentTaskId = archiveState.currentTaskId :=
  restoreTask_resets 7 archiveState archivedSample (by decide)

/-- C4: when `incrementPomodoro` lifts a task's `pomodorosCompleted` to its
`pomodoroEstimate` (or beyond), the task leaves the active list and lands in
the archive exactly once, marked `completed` with `completedAt = now` and
with the incremented `pomodorosCompleted` untouched by the move. -/
theorem incrementPomodoro_archives (now id : Nat) (ts : TaskState) (t : Task)
    (hfind : ts.tasks.find? (fun x => x.id == id) = some t)
    (harch : countId ts.archivedTasks id = 0)
    (hest : t.pomodoroEstimate ≤ t.pomodorosCompleted + 1) :
    countId (incrementPomodoro now id ts).tasks id = 0 ∧
    countId (incrementPomodoro now id ts).archivedTasks id = 1 ∧
    (incrementPomodoro now id ts).archivedTasks.find? (fun x => x.id == id) =
      some { t with pomodorosCompleted := t.pomodorosCompleted + 1,
                    completed := true, completedAt := some now } := by
  have hmem : t ∈ ts.tasks := List.mem_of_find?_eq_some hfind
  have htid : t.id = id := by simpa using List.find?_some hfind
  have hany : (ts.tasks.any (fun x =>
      x.id == id && decide (x.pomodorosCompleted + 1 ≥ x.pomodoroEstimate))) = true := by
    rw [List.any_eq_true]
    exact ⟨t, hmem, by simp [htid, hest]⟩
  have hfind' := find?_map_inc id ts.tasks t hfind
  unfold incrementPomodoro completeTask
  simp only [hany, if_true]
  rw [hfind']
  refine ⟨countId_filter_ne id _, ?_, ?_⟩
  · unfold countId at harch ⊢
    simp [List.filter_cons, htid, harch]
  · exact List.find?_cons_of_pos _ (by simpa using htid)

/-- C1: starting from a Focus state with no completed pomodoros, after the
`n`-th Focus completion (`n ≥ 1`, intervening breaks completed as required)
the count is `n` and the machine sits in LongBreak exactly when
`n % pomodorosUntilLongBreak = 0`, else in ShortBreak. -/
theorem focus_completions_cycle (st : TimerSettings) (now today n : Nat)
    (s : AppState) (_hmode : s.mode = TimerMode.focus)
    (hcount : s.completedPomodoros = 0) (hn : 1 ≤ n) :
    (focusRun st now today n s).completedPomodoros = n ∧
    (focusRun st now today n s).mode =
      (if n % st.pomodorosUntilLongBreak = 0 then TimerMode.longBreak
       else TimerMode.shortBreak) :=
  ⟨(focusRun_invariant st now today s hcount n).1,
   (focusRun_invariant st now today s hcount n).2 hn⟩

/-- Closed instance of C1's theorem: four Focus completions with the default
`pomodorosUntilLongBreak = 4` land in LongBreak with count 4. -/
theorem focus_completions_cycle_witness :
    (initialState defaultTimerSettings).mode = TimerMode.focus ∧
    (initialState defaultTimerSettings).completedPomodoros = 0 ∧ 1 ≤ 4 ∧
    ((focusRun defaultTimerSettings 0 0 4 (initialState defaultTimerSettings)).completedPomodoros = 4 ∧
     (focusRun defaultTimerSettings 0 0 4 (initialState defaultTimerSettings)).mode =
       (if 4 % defaultTimerSettings.pomodorosUntilLongBreak = 0 then TimerMode.longBreak
        else TimerMode.shortBreak)) :=
  ⟨rfl, rfl, by decide,
   focus_completions_cycle defaultTimerSettings 0 0 4 (initialState defaultTimerSettings)
     rfl rfl (by decide)⟩

/-- C9: `pause()` is idempotent — applying `pauseTimer` twice from any state
leaves the whole application state (in particular `isPlaying`,
`remainingTime`, `mode`, `completedPomodoros`, the ambient-playing flag and
the pending notification id) identical to applying it once. -/
theorem pauseTimer_idempotent (s : AppState) :
    pauseTimer (pauseTimer s) = pauseTimer s := rfl

/-- C7: every snapshot written by `saveTimerState` has at most one of
`startedAt`/`pausedAt` non-null; `startedAt` can be non-null only while
playing and `pausedAt` only while not playing. -/
theorem saveTimerState_markers_exclusive (now : Nat) (s : AppState) :
    ((saveTimerState now s).startedAt = none ∨ (saveTimerState now s).pausedAt = none) ∧
    ((saveTimerState now s).startedAt ≠ none → s.isPlaying = true) ∧
    ((saveTimerState now s).pausedAt ≠ none → s.isPlaying = false) := by
  unfold saveTimerState
  cases h : s.isPlaying <;> simp

/-- Closed instance of C7's theorem at a concrete state. -/
theorem saveTimerState_markers_exclusive_witness :
    ((saveTimerState 42 (initialState defaultTimerSettings)).startedAt = none ∨
      (saveTimerState 42 (initialState defaultTimerSettings)).pausedAt = none) ∧
    ((saveTimerState 42 (initialState defaultTimerSettings)).startedAt ≠ none →
      (initialState defaultTimerSettings).isPlaying = true) ∧
    ((saveTimerState 42 (initialState defaultTimerSettings)).pausedAt ≠ none →
      (initialState defaultTimerSettings).isPlaying = false) :=
  saveTimerState_markers_exclusive 42 (initialState defaultTimerSettings)

/-- C6: a duration entered in a `DurationRow` is clamped by `handleBlur` to
the inclusive range 1–90 before `updateTimerSettings` stores it verbatim in
the corresponding field; entering 0 stores 1 and entering 200 stores 90. -/
theorem duration_clamped (parsed : Option Int) (v : Int) (st : TimerSettings) :
    (1 ≤ handleBlur parsed v ∧ handleBlur parsed v ≤ 90) ∧
    (updateWorkDuration st (handleBlur parsed v).toNat).workDuration =
      (handleBlur parsed v).toNat ∧
    (updateShortBreakDuration st (handleBlur parsed v).toNat).shortBreakDuration =
      (handleBlur parsed v).toNat ∧
    (updateLongBreakDuration st (handleBlur parsed v).toNat).longBreakDuration =
      (handleBlur parsed v).toNat ∧
    handleBlur (some 0) v = 1 ∧ handleBlur (some 200) v = 90 := by
  refine ⟨?_, rfl, rfl, rfl, rfl, rfl⟩
  unfold handleBlur
  cases parsed <;> simp

/-- C2 (amended): restoring a snapshot that was playing with a non-null,
non-zero start anchor (epoch-ms `0` is falsy under the source's truthiness
guard) and whose clock ran out while the app was closed zeroes the remaining
time, leaves the timer paused, and keeps the stored mode and pomodoro count
unchanged (no mode advance, no count increment). -/
theorem loadTimerState_expired (st : TimerSettings) (now a rem cp : Nat)
    (m : TimerMode) (pa : Option Nat) (ha : a ≠ 0)
    (helapsed : rem ≤ (now - a) / 1000) :
    (loadTimerState st now
      (some { mode := m, remainingTime := rem, isPlaying := true,
              completedPomodoros := cp, startedAt := some a, pausedAt := pa })
      (initialState st)).remainingTime = 0 ∧
    (loadTimerState st now
      (some { mode := m, remainingTime := rem, isPlaying := true,
              completedPomodoros := cp, startedAt := some a, pausedAt := pa })
      (initialState st)).isPlaying = false ∧
    (loadTimerState st now
      (some { mode := m, remainingTime := rem, isPlaying := true,
              completedPomodoros := cp, startedAt := some a, pausedAt := pa })
      (initialState st)).mode = m ∧
    (loadTimerState st now
      (some { mode := m, remainingTime := rem, isPlaying := true,
              completedPomodoros := cp, startedAt := some a, pausedAt := pa })
      (initialState st)).completedPomodoros = cp := by
  have hz : rem - (now - a) / 1000 = 0 := Nat.sub_eq_zero_of_le helapsed
  unfold loadTimerState
  simp [ha, hz, initialState]

/-- Counterexample to C2 as originally stated (every non-null `startedAt`):
a snapshot playing with the falsy anchor `startedAt = 0` and 5 s stored,
reloaded at epoch-ms 10000 — the premises hold (elapsed 10 s ≥ 5 s stored),
but the source's truthiness guard `state.isPlaying && state.startedAt` sends
it through the non-playing restore branch, which keeps `remainingTime = 5`
instead of zeroing it. -/
theorem loadTimerState_zero_anchor_counterexample :
    5 ≤ (10000 - 0) / 1000 ∧
    (loadTimerState defaultTimerSettings 10000 (some
      { mode := TimerMode.shortBreak, remainingTime := 5, isPlaying := true,
        completedPomodoros := 2, startedAt := some 0, pausedAt := none })
      (initialState defaultTimerSettings)).remainingTime = 5 ∧
    ¬ (loadTimerState defaultTimerSettings 10000 (some
      { mode := TimerMode.shortBreak, remainingTime := 5, isPlaying := true,
        completedPomodoros := 2, startedAt := some 0, pausedAt := none })
      (initialState defaultTimerSettings)).remainingTime = 0 := by
  decide

/-- Closed instance of C2's (amended) theorem: a snapshot playing since
epoch-ms 1 with 5 s left, reloaded at epoch-ms 10000. -/
theorem loadTimerState_expired_witness :
    1 ≠ 0 ∧ 5 ≤ (10000 - 1) / 1000 ∧
    ((loadTimerState defaultTimerSettings 10000 (some
      { mode := TimerMode.shortBreak, remainingTime := 5, isPlaying := true,
        completedPomodoros := 2, startedAt := some 1, pausedAt := none })
      (initialState defaultTimerSettings)).remainingTime = 0 ∧
    (loadTimerState defaultTimerSettings 10000 (some
      { mode := TimerMode.shortBreak, remainingTime := 5, isPlaying := true,
        completedPomodoros := 2, startedAt := some 1, pausedAt := none })
      (initialState defaultTimerSettings)).isPlaying = false ∧
    (loadTimerState defaultTimerSettings 10000 (some
      { mode := TimerMode.shortBreak, remainingTime := 5, isPlaying := true,
        completedPomodoros := 2, startedAt := some 1, pausedAt := none })
      (initialState defaultTimerSettings)).mode = TimerMode.shortBreak ∧
    (loadTimerState defaultTimerSettings 10000 (some
      { mode := TimerMode.shortBreak, remainingTime := 5, isPlaying := true,
        completedPomodoros := 2, startedAt := some 1, pausedAt := none })
      (initialState defaultTimerSettings)).completedPomodoros = 2) :=
  ⟨by decide, by decide,
   loadTimerState_expired defaultTimerSettings 10000 1 5 2 TimerMode.shortBreak none
     (by decide) (by decide)⟩

/-- C5: `calculateStreaks` realises the spec's streak algorithm — on every
session list it returns the head-run / longest-run pair over the distinct
dates sorted descending, with the current streak zeroed unless the most
recent date is today or yesterday; in particular sessions on
{today, today-1, today-2} give `currentStreak = 3` and `bestStreak = 3`, and
sessions on {today-5, today-6} only give `currentStreak = 0` and
`bestStreak = 2`. -/
theorem calculateStreaks_correct :
    (∀ today sessions, calculateStreaks today sessions = streaksSpec today sessions) ∧
    calculateStreaks 1000 [mkSession 1000, mkSession 999, mkSession 998] = (3, 3) ∧
    calculateStreaks 1000 [mkSession 995, mkSession 994] = (0, 2) :=
  ⟨calculateStreaks_eq_spec, by decide, by decide⟩

/-- C10: on every session list the best streak is at least the current
streak, and the empty list yields `(0, 0)`. -/
theorem bestStreak_ge_currentStreak (today : Nat) (sessions : List FocusSession) :
    (calculateStreaks today sessions).1 ≤ (calculateStreaks today sessions).2 ∧
    calculateStreaks today [] = (0, 0) := by
  refine ⟨?_, rfl⟩
  rw [calculateStreaks_eq_spec]
  unfold streaksSpec
  cases h : getUniqueDatesDesc sessions with
  | nil => simp
  | cons d0 rest =>
    simp only
    rw [bestRun_cons, firstRun_cons]
    split
    · omega
    · omega

/-- Closed instance of C4's theorem: incrementing a task sitting at 2 of 3
pomodoros archives it once, completed, with count 3. -/
theorem incrementPomodoro_archives_witness :
    countId (incrementPomodoro 500 7 nearlyDoneState).tasks 7 = 0 ∧
    countId (incrementPomodoro 500 7 nearlyDoneState).archivedTasks 7 = 1 ∧
    (incrementPomodoro 500 7 nearlyDoneState).archivedTasks.find? (fun x => x.id == 7) =
      some { sampleTask with pomodorosCompleted := 3, completed := true,
                             completedAt := some 500 } :=
  incrementPomodoro_archives 500 7 nearlyDoneState
    { sampleTask with pomodorosCompleted := 2 } (by decide) (by decide) (by decide)

/-- C3: a Focus completion with the completion callback registered appends
exactly one `FocusSession` whose `duration` is the `workDuration` setting,
whose category/taskId/taskTitle come from the current task when one is
selected and from the user-selected category otherwise, and increments the
selected task's `pomodorosCompleted` by one; completing from
`remainingTime = 1` by one `tick` with `pomodorosUntilLongBreak > 1` lands
in ShortBreak with `completedPomodoros = 1` and one such recorded session. -/
theorem focus_complete_records (st : TimerSettings) (now today : Nat)
    (s : AppState) (hmode : s.mode = TimerMode.focus)
    (hcb : s.callbackRegistered = true) :
    (∃ sess : FocusSession,
      (handleTimerComplete st now today s).sessions = s.sessions ++ [sess] ∧
      sess.duration = st.workDuration ∧
      (∀ t, currentTask s.taskState = some t →
        sess.category = t.category ∧ sess.taskId = some t.id ∧
        sess.taskTitle = some t.title) ∧
      (currentTask s.taskState = none →
        sess.category = s.selectedCategory ∧ sess.taskId = none ∧
        sess.taskTitle = none)) ∧
    (∀ t, currentTask s.taskState = some t →
      ∃ t', findTaskAnywhere (handleTimerComplete st now today s).taskState t.id = some t' ∧
        t'.pomodorosCompleted = t.pomodorosCompleted + 1) ∧
    (s.remainingTime = 1 → s.completedPomodoros = 0 →
      1 < st.pomodorosUntilLongBreak →
      (tick st now today s).mode = TimerMode.shortBreak ∧
      (tick st now today s).completedPomodoros = 1 ∧
      ∃ sess : FocusSession, (tick st now today s).sessions = s.sessions ++ [sess] ∧
        sess.duration = st.workDuration) := by
  obtain ⟨h1, h2⟩ := handleTimerComplete_focus_effects st now today s hmode hcb
  refine ⟨h1, h2, ?_⟩
  intro hrem hcp hk
  have htick : tick st now today s =
      handleTimerComplete st now today { s with remainingTime := 0 } := by
    unfold tick
    rw [if_pos (by omega)]
  have hmode' : ({ s with remainingTime := 0 } : AppState).mode = TimerMode.focus := hmode
  have hcb' : ({ s with remainingTime := 0 } : AppState).callbackRegistered = true := hcb
  have hfoc := handleTimerComplete_focus st now today { s with remainingTime := 0 } hmode'
  have hcp' : ({ s with remainingTime := 0 } : AppState).completedPomodoros = 0 := hcp
  have hmod1 : (({ s with remainingTime := 0 } : AppState).completedPomodoros + 1) %
      st.pomodorosUntilLongBreak = 1 := by
    rw [hcp']
    exact Nat.mod_eq_of_lt hk
  refine ⟨?_, ?_, ?_⟩
  · rw [htick, hfoc.2, hmod1]
    simp
  · rw [htick, hfoc.1, hcp']
  · obtain ⟨he1, _⟩ := handleTimerComplete_focus_effects st now today
      { s with remainingTime := 0 } hmode' hcb'
    obtain ⟨sess, hs1, hs2, _, _⟩ := he1
    exact ⟨sess, by rw [htick, hs1], hs2⟩

/-- Closed instance of C3's theorem at `sampleState`. -/
theorem focus_complete_records_witness :
    (∃ sess : FocusSession,
      (handleTimerComplete defaultTimerSettings 111 20000 sampleState).sessions =
        sampleState.sessions ++ [sess] ∧
      sess.duration = defaultTimerSettings.workDuration ∧
      (∀ t, currentTask sampleState.taskState = some t →
        sess.category = t.category ∧ sess.taskId = some t.id ∧
        sess.taskTitle = some t.title) ∧
      (currentTask sampleState.taskState = none →
        sess.category = sampleState.selectedCategory ∧ sess.taskId = none ∧
        sess.taskTitle = none)) ∧
    (∀ t, currentTask sampleState.taskState = some t →
      ∃ t', findTaskAnywhere
          (handleTimerComplete defaultTimerSettings 111 20000 sampleState).taskState
          t.id = some t' ∧
        t'.pomodorosCompleted = t.pomodorosCompleted + 1) ∧
    (sampleState.remainingTime = 1 → sampleState.completedPomodoros = 0 →
      1 < defaultTimerSettings.pomodorosUntilLongBreak →
      (tick defaultTimerSettings 111 20000 sampleState).mode = TimerMode.shortBreak ∧
      (tick defaultTimerSettings 111 20000 sampleState).completedPomodoros = 1 ∧
      ∃ sess : FocusSession,
        (tick defaultTimerSettings 111 20000 sampleState).sessions =
          sampleState.sessions ++ [sess] ∧
        sess.duration = defaultTimerSettings.workDuration) :=
  focus_complete_records defaultTimerSettings 111 20000 sampleState rfl rfl

end Pomodoro
